import Mathlib

/-!
Shallow embedding of the DebiasingHateDetectionAAE repository
(`src/utils/utils.py` and
`src/existing_models/contextual-hsd-expl/loader/twitter.py`).

Python dictionaries with string keys and numeric values are modelled as
association lists `List (String × ℚ)` with insertion-order assignment
semantics; numpy / pandas numeric values are modelled as `ℤ` (integer
arrays) and `ℚ` (float results); fallible Python code returns
`Except PyErr`.
-/

/-- Python exception kinds raised by the modelled code. -/
inductive PyErr
  | typeError
  | assertionError
  | valueError
  | indexError
  | stopIteration
  | runtimeError
deriving DecidableEq

/-- A Python dict with string keys and float values, in insertion order. -/
abbrev MetricsDict := List (String × ℚ)

/-- Python dict assignment `d[k] = v`: replace the value in place when the
key is present, otherwise append the new binding at the end. -/
def dictSet : MetricsDict → String → ℚ → MetricsDict
  | [], k, v => [(k, v)]
  | (k0, v0) :: rest, k, v =>
    if k0 = k then (k0, v) :: rest else (k0, v0) :: dictSet rest k v

/-- `utils.simple_accuracy`: `(preds == labels).mean()`, the mean of the
elementwise agreement indicator. -/
def simple_accuracy (preds labels : List ℤ) : ℚ :=
  let agree := List.zipWith (fun p l => if p = l then (1 : ℚ) else 0) preds labels
  agree.sum / (agree.length : ℚ)

/-- Number of positions of `xs` holding class `c` (a pandas/numpy value count). -/
def classCount (xs : List ℤ) (c : ℤ) : ℕ :=
  xs.countP (fun x => decide (x = c))

/-- True positives of class `c`: positions where prediction and label both
equal `c`. -/
def tpCount (preds labels : List ℤ) (c : ℤ) : ℕ :=
  (preds.zip labels).countP (fun pl => decide (pl.1 = c ∧ pl.2 = c))

/-- Per-class precision `tp / predicted`, with sklearn's zero-division
convention (`0` when nothing is predicted as `c`; in `ℚ`, `x / 0 = 0`). -/
def precisionOf (preds labels : List ℤ) (c : ℤ) : ℚ :=
  (tpCount preds labels c : ℚ) / (classCount preds c : ℚ)

/-- Per-class recall `tp / support`, with the zero-division convention. -/
def recallOf (preds labels : List ℤ) (c : ℤ) : ℚ :=
  (tpCount preds labels c : ℚ) / (classCount labels c : ℚ)

/-- Per-class F1 `2pr/(p+r)`, `0` when `p + r = 0`. -/
def f1Of (preds labels : List ℤ) (c : ℤ) : ℚ :=
  let p := precisionOf preds labels c
  let r := recallOf preds labels c
  2 * (p * r) / (p + r)

/-- The sorted distinct values of an integer array (numpy `unique`, also the
sorted group keys of a pandas `groupby`). -/
def sortedUnique (xs : List ℤ) : List ℤ :=
  xs.dedup.insertionSort (fun a b => a ≤ b)

/-- sklearn's `average='weighted'`: the support-weighted mean of a per-class
metric over the sorted union of the classes present in labels and
predictions. -/
def weightedAvg (preds labels : List ℤ) (metric : ℤ → ℚ) : ℚ :=
  ((sortedUnique (labels ++ preds)).map
    (fun c => (classCount labels c : ℚ) * metric c)).sum / (labels.length : ℚ)

/-- `sklearn.metrics.f1_score` with binary default (positive label `1`). -/
def f1_score (preds labels : List ℤ) : ℚ := f1Of preds labels 1

/-- `sklearn.metrics.precision_score` with binary default. -/
def precision_score (preds labels : List ℤ) : ℚ := precisionOf preds labels 1

/-- `sklearn.metrics.recall_score` with binary default. -/
def recall_score (preds labels : List ℤ) : ℚ := recallOf preds labels 1

/-- `f1_score(..., average='weighted')`. -/
def f1_weighted (preds labels : List ℤ) : ℚ :=
  weightedAvg preds labels (f1Of preds labels)

/-- `precision_score(..., average='weighted')`. -/
def precision_weighted (preds labels : List ℤ) : ℚ :=
  weightedAvg preds labels (precisionOf preds labels)

/-- `recall_score(..., average='weighted')`. -/
def recall_weighted (preds labels : List ℤ) : ℚ :=
  weightedAvg preds labels (recallOf preds labels)

/-- `sklearn.metrics.roc_auc_score` on binary labels: the rank statistic
(probability that a positive outranks a negative, ties counted half).
It raises `ValueError` unless the labels contain exactly two distinct
classes; the larger class is the positive one. -/
def roc_auc_score (labels : List ℤ) (scores : List ℚ) : Except PyErr ℚ :=
  match sortedUnique labels with
  | [neg, pos] =>
    let rows := labels.zip scores
    let posScores := (rows.filter (fun r => decide (r.1 = pos))).map (fun r => r.2)
    let negScores := (rows.filter (fun r => decide (r.1 = neg))).map (fun r => r.2)
    let wins : ℚ := ((posScores.map (fun sp =>
      ((negScores.map (fun sn =>
        if sp > sn then (1 : ℚ) else if sp = sn then (1 : ℚ) / 2 else 0)).sum))).sum)
    .ok (wins / ((posScores.length : ℚ) * (negScores.length : ℚ)))
  | _ => .error .valueError

/-- `utils.acc_and_f1`: the metrics dict, with the ROC-AUC guarded by
`try/except ValueError` and replaced by `0.` on failure.  `pred_probs` is
the two-column probability array; `pred_probs[:, 1]` is its second column. -/
def acc_and_f1 (preds labels : List ℤ) (pred_probs : List (ℚ × ℚ)) : MetricsDict :=
  let acc := simple_accuracy preds labels
  let f1 := f1_score preds labels
  let f1_w := f1_weighted preds labels
  let p := precision_score preds labels
  let r := recall_score preds labels
  let p_w := precision_weighted preds labels
  let r_w := recall_weighted preds labels
  let roc : ℚ :=
    match roc_auc_score labels (pred_probs.map (fun pr => pr.2)) with
    | .ok v => v
    | .error _ => 0
  [("acc", acc), ("f1", f1), ("precision", p), ("recall", r),
   ("auc_roc", roc), ("precision_weighted", p_w), ("recall_weighted", r_w),
   ("f1_weighted", f1_w)]

/-- One row per sorted distinct key of the indicator column: the pandas
`groupby(by=key_col).agg({'pred': ['count', favorable, unfavorable]})`
of `utils.compute_disparate_impact`, where `favorable` counts predictions
equal to `0` and `unfavorable` counts predictions equal to `1`. -/
def groupCounts (preds g : List ℤ) : List (ℤ × ℕ × ℕ × ℕ) :=
  (sortedUnique g).map (fun key =>
    let rows := (g.zip preds).filter (fun x => decide (x.1 = key))
    (key, rows.length, rows.countP (fun x => decide (x.2 = 0)),
      rows.countP (fun x => decide (x.2 = 1))))

/-- One of the two identical blocks of `utils.compute_disparate_impact`:
when the aggregated frame has shape `(2, 4)` (exactly two groups), add the
disparate-impact keys with suffix `sfx`; otherwise leave the dict alone. -/
def impactStage (m : MetricsDict) (preds g : List ℤ) (sfx : String) : MetricsDict :=
  match groupCounts preds g with
  | [(_, c0, f0, _), (_, c1, f1, _)] =>
    let unprivRat : ℚ := (f0 : ℚ) / (c0 : ℚ)
    let privRat : ℚ := (f1 : ℚ) / (c1 : ℚ)
    let di := unprivRat / privRat
    dictSet (dictSet (dictSet (dictSet (dictSet m
      ("disparate_impact_" ++ sfx) di)
      ("unpriv_ratio_" ++ sfx) unprivRat)
      ("priv_ratio_" ++ sfx) privRat)
      ("priv_n_" ++ sfx) (c1 : ℚ))
      ("unpriv_n_" ++ sfx) (c0 : ℚ)
  | _ => m

/-- `utils.compute_disparate_impact(metrics_dict, preds, in_group_labels_08,
in_group_labels_06)`: the `0.8` block followed by the `0.6` block. -/
def compute_disparate_impact (m : MetricsDict) (preds g08 g06 : List ℤ) : MetricsDict :=
  impactStage (impactStage m preds g08 "0.8") preds g06 "0.6"

/-- `utils.compute_metrics`.  The source asserts
`len(preds) == len(labels)` (an `AssertionError` when violated), builds the
dict via `acc_and_f1` and then evaluates
`compute_disparate_impact(metrics_dict, preds, labels, pred_probs,
in_group_labels_08, in_group_labels_06)` — six positional arguments for a
four-parameter function, which raises `TypeError` before the callee runs. -/
def compute_metrics (preds labels : List ℤ) (pred_probs : List (ℚ × ℚ))
    (_g08 _g06 : List ℤ) : Except PyErr MetricsDict :=
  if preds.length = labels.length then
    let _m := acc_and_f1 preds labels pred_probs
    .error .typeError
  else
    .error .assertionError

/-- The fraction of rows whose indicator equals `k` and whose prediction is
`0`, among rows whose indicator equals `k` (the claim's reading of the
group ratios). -/
def fracZero (preds g : List ℤ) (k : ℤ) : ℚ :=
  (((preds.zip g).countP (fun x => decide (x.2 = k ∧ x.1 = 0))) : ℚ) /
    ((g.countP (fun x => decide (x = k))) : ℚ)

/-! ## Loader: `TwitterProcessor` (twitter.py) -/

/-- The `InputExample` built by `TwitterProcessor._create_examples`. -/
structure InputExample where
  guid : String
  text_a : String
  label : ℤ
deriving DecidableEq

/-- The whitespace stripping Python's `int(...)` applies to its argument. -/
def pyStrip (s : String) : List Char :=
  ((s.toList.dropWhile (fun c => c.isWhitespace)).reverse.dropWhile
    (fun c => c.isWhitespace)).reverse

/-- Python `int(s)` on a CSV cell: optional surrounding whitespace, an
optional sign, then a nonempty digit string; anything else raises
`ValueError` (modelled as `none`). -/
def pyInt (s : String) : Option ℤ :=
  let t := pyStrip s
  let core := match t with
    | '-' :: rest => rest
    | '+' :: rest => rest
    | _ => t
  if core.length > 0 && core.all (fun c => c.isDigit) then
    let mag : ℕ := core.foldl (fun acc c => 10 * acc + (c.toNat - 48)) 0
    some (match t with
      | '-' :: _ => -(mag : ℤ)
      | _ => (mag : ℤ))
  else none

/-- A CSV file as `csv.reader` yields it: one list of cell strings per line. -/
abbrev CsvRows := List (List String)

/-- Python list indexing `row[i]` for a nonnegative index: `IndexError`
when out of range. -/
def pyIndex (row : List String) (i : ℕ) : Except PyErr String :=
  match row[i]? with
  | some c => .ok c
  | none => .error .indexError

/-- The `for i, row in enumerate(reader)` loop of
`TwitterProcessor._create_examples`, threading the 0-based row index:
build the `InputExample` from the text column, then parse the label column
with `int(...)`. -/
def createExamplesLoop (text_col label_col : ℕ) (split : String) :
    ℕ → CsvRows → Except PyErr (List InputExample)
  | _, [] => .ok []
  | i, row :: rest =>
    match pyIndex row text_col with
    | .error e => .error e
    | .ok txt =>
      match pyIndex row label_col with
      | .error e => .error e
      | .ok cell =>
        match pyInt cell with
        | none => .error .valueError
        | some lab =>
          match createExamplesLoop text_col label_col split (i + 1) rest with
          | .error e => .error e
          | .ok tail =>
            .ok ({ guid := split ++ "-" ++ toString i, text_a := txt,
                   label := lab } :: tail)

/-- `TwitterProcessor._create_examples`: open `<split>.csv`, skip the header
row via `next(reader)` (`StopIteration` when the file has no rows at all),
then run the row loop. -/
def create_examples (text_col label_col : ℕ) (split : String)
    (rows : CsvRows) : Except PyErr (List InputExample) :=
  match rows with
  | [] => .error .stopIteration
  | _header :: body => createExamplesLoop text_col label_col split 0 body

/-- `TwitterProcessor.get_train_examples`. -/
def get_train_examples (text_col label_col : ℕ) (rows : CsvRows) :
    Except PyErr (List InputExample) :=
  create_examples text_col label_col "train" rows

/-- `TwitterProcessor.get_dev_examples`. -/
def get_dev_examples (text_col label_col : ℕ) (rows : CsvRows) :
    Except PyErr (List InputExample) :=
  create_examples text_col label_col "dev" rows

/-- `TwitterProcessor.get_test_examples`. -/
def get_test_examples (text_col label_col : ℕ) (rows : CsvRows) :
    Except PyErr (List InputExample) :=
  create_examples text_col label_col "test" rows

/-- One feature dict of `TwitterProcessor.get_features`. -/
structure BertFeature where
  text : List ℤ
  length : ℕ
deriving DecidableEq

/-- Python slice `l[:stop]` for an integer bound, including the negative
convention: `l[:-k]` keeps all but the last `k` elements. -/
def pySliceTo (stop : ℤ) (l : List α) : List α :=
  if 0 ≤ stop then l.take stop.toNat
  else l.take (l.length - stop.natAbs)

/-- The per-example body of `TwitterProcessor.get_features`: tokenize,
truncate when the token count exceeds `max_seq_length - 2` (Python integer
arithmetic, so the bound can be negative), wrap in `[CLS]`/`[SEP]`,
convert the tokens to ids (the tokenizer maps each token to its id) and
right-pad with `0` up to `max_seq_length` (a nonpositive padding count
yields no padding, as in Python list repetition). -/
def featureOf (max_seq_length : ℕ) (tokenize : String → List String)
    (token_to_id : String → ℤ) (ex : InputExample) : BertFeature :=
  let tokens0 := tokenize ex.text_a
  let tokens1 :=
    if (tokens0.length : ℤ) > (max_seq_length : ℤ) - 2 then
      pySliceTo ((max_seq_length : ℤ) - 2) tokens0
    else tokens0
  let tokens := ["[CLS]"] ++ tokens1 ++ ["[SEP]"]
  let input_ids := tokens.map token_to_id
  let padding := List.replicate (max_seq_length - input_ids.length) (0 : ℤ)
  { text := input_ids ++ padding, length := tokens.length }

/-- `TwitterProcessor.get_features` over the examples of a split. -/
def get_features (max_seq_length : ℕ) (tokenize : String → List String)
    (token_to_id : String → ℤ) (examples : List InputExample) : List BertFeature :=
  examples.map (featureOf max_seq_length tokenize token_to_id)

/-! ## Vectorization (utils.py) -/

/-- `string.punctuation` from the Python standard library. -/
def pythonPunctuation : List Char :=
  "!\"#$%&\x27()*+,-./:;<=>?@[\\]^_\x60\x7b|\x7d~".toList

/-- The character class of `utils.remove_punctuation_tweet`:
`re.sub("\.", "", string.punctuation)`, i.e. punctuation minus the period. -/
def punctuationNoPeriod : List Char :=
  pythonPunctuation.filter (fun c => c != '.')

/-- `utils.remove_punctuation_tweet`: delete every punctuation character
except periods from each text. -/
def remove_punctuation_tweet (texts : List String) : List String :=
  texts.map (fun t =>
    String.mk (t.toList.filter (fun c => !(punctuationNoPeriod.contains c))))

/-- Document frequency of token `t` under the analyzer. -/
def docFreq (analyze : String → List String) (docs : List String) (t : String) : ℕ :=
  docs.countP (fun d => (analyze d).contains t)

/-- The vocabulary learned by `vectorizer.fit_transform` on the fitted
corpus: the distinct analyzed tokens whose document frequency reaches
`min_df`, sorted (sklearn keeps its vocabulary sorted); the analyzer
(word/char n-grams, accent stripping) is the library's and is a parameter
of the model. -/
def fitVocabulary (analyze : String → List String) (min_df : ℕ)
    (docs : List String) : List String :=
  (((docs.flatMap analyze).dedup).filter
    (fun t => decide (min_df ≤ docFreq analyze docs t))).insertionSort
    (fun a b => a ≤ b)

/-- `vectorizer.transform`: one row per document and one column per
vocabulary entry, the term count scaled by the idf weight of the token
(`idf` is the library's fitted weighting — together with the float32 cast
it rescales entries without changing the shape). -/
def vectTransform (analyze : String → List String) (idf : String → ℚ)
    (vocab : List String) (docs : List String) : List (List ℚ) :=
  docs.map (fun d => vocab.map (fun t => ((analyze d).count t : ℚ) * idf t))

/-- `SelectKBest(score_fn, k).fit`: rank the column indices by decreasing
training score and keep the best `k`, in increasing index order (the
selector's `transform` keeps columns in their original order). -/
def topKIndices (scores : List ℚ) (k : ℕ) : List ℕ :=
  (((List.range scores.length).insertionSort
      (fun i j => scores.getD j 0 ≤ scores.getD i 0)).take k).insertionSort
    (fun a b => a ≤ b)

/-- `selector.transform`: keep the selected columns of every row. -/
def selectColumns (idxs : List ℕ) (m : List (List ℚ)) : List (List ℚ) :=
  m.map (fun row => idxs.map (fun i => row.getD i 0))

/-- `utils.tfidf_vectorize`: strip punctuation (except periods) from the
three corpora, fit the vectorizer vocabulary on the training texts, build
the three matrices, then fit `SelectKBest(f_classif,
k=min(top_k, x_train.shape[1]))` on the training matrix and labels and
transform all three.  The analyzer, the idf weighting and the `f_classif`
score function are opaque sklearn routines, passed as parameters. -/
def tfidf_vectorize (analyze : String → List String) (idf : String → ℚ)
    (score : List (List ℚ) → List ℤ → List ℚ)
    (train_texts : List String) (train_labels : List ℤ)
    (val_texts test_texts : List String) (top_k min_df : ℕ) :
    List (List ℚ) × List (List ℚ) × List (List ℚ) :=
  let tr := remove_punctuation_tweet train_texts
  let va := remove_punctuation_tweet val_texts
  let te := remove_punctuation_tweet test_texts
  let vocab := fitVocabulary analyze min_df tr
  let x_train := vectTransform analyze idf vocab tr
  let x_val := vectTransform analyze idf vocab va
  let x_test := vectTransform analyze idf vocab te
  let sel := topKIndices (score x_train train_labels) (min top_k vocab.length)
  (selectColumns sel x_train, selectColumns sel x_val, selectColumns sel x_test)

/-- `TextVectorization(standardize='lower_and_strip_punctuation')` applied
to one text: lowercase, delete punctuation, split on whitespace. -/
def tvStandardize (s : String) : List String :=
  ((String.mk (s.toLower.toList.filter
    (fun c => !(pythonPunctuation.contains c)))).splitOn " ").filter
    (fun w => !(w.isEmpty))

/-- `TextVectorization(max_tokens=20000).adapt(train)` followed by
`get_vocabulary()`: the padding token `""`, the OOV token `"[UNK]"`, then
the corpus tokens by decreasing frequency (ties by token), truncated to
`max_tokens` entries in total. -/
def adaptVocabulary (max_tokens : ℕ) (train_texts : List String) : List String :=
  let toks := train_texts.flatMap tvStandardize
  let ranked := toks.dedup.insertionSort (fun a b =>
    toks.count b < toks.count a ∨ (toks.count b = toks.count a ∧ a ≤ b))
  ["", "[UNK]"] ++ ranked.take (max_tokens - 2)

/-- Applying the adapted vectorizer to a batch: each standardized token maps
to its vocabulary index (the OOV index `1` when absent), and every row is
truncated or zero-padded to `output_len` (`output_sequence_length`). -/
def tvVectorize (voc : List String) (output_len : ℕ) (texts : List String) :
    List (List ℤ) :=
  texts.map (fun t =>
    let ids := (tvStandardize t).map
      (fun w => if w ∈ voc then ((voc.indexOf w : ℕ) : ℤ) else 1)
    (ids ++ List.replicate (output_len - ids.length) 0).take output_len)

/-- `embeddings_index`: the dict read from the GloVe file, one word and one
coefficient vector per line; a repeated word keeps its last line. -/
def embeddingsIndex (gloveFile : List (String × List ℚ)) (w : String) :
    Option (List ℚ) :=
  (gloveFile.reverse.find? (fun e => e.1 == w)).map (fun e => e.2)

/-- The `embedding_matrix` of `utils.glove_vectorize`: `len(voc) + 2` rows;
the row of vocabulary word `i` is its GloVe vector when the file has one
and all zeros otherwise (`np.zeros` initialization); the two trailing rows
stay zero. -/
def embeddingMatrix (voc : List String) (embedding_dim : ℕ)
    (gloveFile : List (String × List ℚ)) : List (List ℚ) :=
  (List.range (voc.length + 2)).map (fun i =>
    match voc[i]? with
    | some w =>
      match embeddingsIndex gloveFile w with
      | some v => v
      | none => List.replicate embedding_dim 0
    | none => List.replicate embedding_dim 0)

/-- A Keras `Embedding` layer as configured by `utils.glove_vectorize`. -/
structure EmbeddingLayer where
  input_dim : ℕ
  output_dim : ℕ
  weights : List (List ℚ)
  trainable : Bool
deriving DecidableEq

/-- `utils.glove_vectorize`: adapt a `TextVectorization(max_tokens=20000,
output_sequence_length=200)` on the training texts only, vectorize the
three corpora, and build a frozen `Embedding(num_tokens, 100)` initialized
from the GloVe file. -/
def glove_vectorize (train_texts val_texts test_texts : List String)
    (gloveFile : List (String × List ℚ)) :
    List (List ℤ) × List (List ℤ) × List (List ℤ) × EmbeddingLayer :=
  let voc := adaptVocabulary 20000 train_texts
  let num_tokens := voc.length + 2
  let x_train := tvVectorize voc 200 train_texts
  let x_val := tvVectorize voc 200 val_texts
  let x_test := tvVectorize voc 200 test_texts
  (x_train, x_val, x_test,
    { input_dim := num_tokens, output_dim := 100,
      weights := embeddingMatrix voc 100 gloveFile, trainable := false })

/-! ## `get_middle_factors` and `plot_iterative_learning_curve` (utils.py) -/

/-- Python `range(start, stop, step)` for a positive step. -/
def pyRange (start stop step : ℕ) : List ℕ :=
  (List.range ((stop - start + step - 1) / step)).map (fun k => start + k * step)

/-- The value `utils.get_middle_factors` returns: a pair of factors, or the
bare scalar `0` of its final branch. -/
inductive MiddleFactors
  | pair (a b : ℕ)
  | scalar (z : ℕ)
deriving DecidableEq

/-- The sorted factor array of `utils.get_middle_factors`: collect
`{i, n // i}` for every `i` dividing `n` in
`range(1, int(sqrt(n)) + 1, step)` with `step = 2` for odd `n`, as a set,
then sort (`np.sort` of a Python `set`, modelled as `dedup` plus sort). -/
def factorList (n : ℕ) : List ℕ :=
  let step := if n % 2 ≠ 0 then 2 else 1
  let smalls := (pyRange 1 (Nat.sqrt n + 1) step).filter (fun i => n % i == 0)
  ((smalls.flatMap (fun i => [i, n / i])).dedup).insertionSort (fun a b => a ≤ b)

/-- `utils.get_middle_factors`: the two middle entries of the sorted factor
array (the repeated middle entry when the array has odd length), the first
two entries when only two exist, and the scalar `0` otherwise. -/
def get_middle_factors (n : ℕ) : MiddleFactors :=
  let factors := factorList n
  if 3 < factors.length ∧ factors.length % 2 = 0 then
    let mid := factors.length / 2
    .pair (factors.getD (mid - 1) 0) (factors.getD mid 0)
  else if 2 < factors.length ∧ factors.length % 2 ≠ 0 then
    let mid := factors.length / 2
    .pair (factors.getD mid 0) (factors.getD mid 0)
  else if 1 < factors.length then
    .pair (factors.getD 0 0) (factors.getD 1 0)
  else
    .scalar 0

/-- Observable side effects of `utils.plot_iterative_learning_curve`:
fitting an estimator and writing an output file. -/
inductive IterEffect
  | fitModel
  | writeFile (path : String)
deriving DecidableEq

/-- `utils.plot_iterative_learning_curve`: seed numpy, then `raise` (a bare
`raise` with no active exception, hence `RuntimeError`) when either
`model_name` or `dataset_name` is `None`; otherwise fit the grid search,
write the cross-validation csv, refit the classifier twice per parameter
value, and write the per-value accuracy csv.  The model records the trace
of fits and file writes; the numeric results of the sklearn calls are not
tracked. -/
def plot_iterative_learning_curve (model_name dataset_name : Option String)
    (param_values : List ℚ) : Except PyErr Unit × List IterEffect :=
  match model_name, dataset_name with
  | some mn, some dn =>
    (.ok (),
      [IterEffect.fitModel,
       IterEffect.writeFile ("./output/ITER_base_" ++ mn ++ "_" ++ dn ++ ".csv")] ++
      param_values.flatMap (fun _ => [IterEffect.fitModel, IterEffect.fitModel]) ++
      [IterEffect.writeFile ("./output/ITERtestSET_" ++ mn ++ "_" ++ dn ++ ".csv")])
  | _, _ => (.error .runtimeError, [])

/-! ## Helper lemmas -/

theorem lookup_dictSet_self (m : MetricsDict) (k : String) (v : ℚ) :
    (dictSet m k v).lookup k = some v := by
  induction m with
  | nil => simp [dictSet, List.lookup]
  | cons p rest ih =>
    obtain ⟨k0, v0⟩ := p
    by_cases h : k0 = k
    · subst h; simp [dictSet, List.lookup]
    · have hb : (k == k0) = false := beq_eq_false_iff_ne.mpr (Ne.symm h)
      simp [dictSet, h, List.lookup, hb, ih]

theorem lookup_dictSet_ne (m : MetricsDict) (k k' : String) (v : ℚ)
    (h : k' ≠ k) : (dictSet m k v).lookup k' = m.lookup k' := by
  have hb : (k' == k) = false := beq_eq_false_iff_ne.mpr h
  induction m with
  | nil => simp [dictSet, List.lookup, hb]
  | cons p rest ih =>
    obtain ⟨k0, v0⟩ := p
    by_cases h0 : k0 = k
    · subst h0; simp [dictSet, List.lookup, hb]
    · cases hb1 : (k' == k0) <;> simp [dictSet, h0, List.lookup, hb1, ih]

theorem sum_indicator_zipWith (preds labels : List ℤ) :
    (List.zipWith (fun p l => if p = l then (1 : ℚ) else 0) preds labels).sum =
      ((preds.zip labels).countP (fun x => decide (x.1 = x.2)) : ℚ) := by
  induction preds generalizing labels with
  | nil => simp
  | cons p ps ih =>
    cases labels with
    | nil => simp
    | cons l ls =>
      by_cases hpl : p = l
      · simp only [List.zipWith_cons_cons, List.sum_cons, List.zip_cons_cons,
          List.countP_cons, hpl, ih ls, if_true, decide_True]
        push_cast
        ring
      · simp [List.countP_cons, hpl, ih ls]

/-! ## Claim theorems: metrics -/

/-- C1 (code bug): `compute_metrics` cannot return the merged dictionary.
Its body evaluates `compute_disparate_impact(metrics_dict, preds, labels,
pred_probs, in_group_labels_08, in_group_labels_06)` — six positional
arguments for the four-parameter `compute_disparate_impact` — so every
call with equal-length `preds` and `labels` raises `TypeError`; here the
model is evaluated at one concrete input. -/
theorem C1_compute_metrics_raises :
    compute_metrics [0, 1] [0, 1] [(1/2, 1/2), (1/2, 1/2)] [0, 1] [1, 0] =
      .error .typeError := rfl

/-- C7: for equal-length arrays, the `"acc"` entry of `acc_and_f1` is
`simple_accuracy`, the number of agreeing positions over the number of
positions. -/
theorem C7_acc_is_simple_accuracy (preds labels : List ℤ)
    (pred_probs : List (ℚ × ℚ)) (h : preds.length = labels.length) :
    (acc_and_f1 preds labels pred_probs).lookup "acc" =
      some (simple_accuracy preds labels) ∧
    simple_accuracy preds labels =
      ((preds.zip labels).countP (fun x => decide (x.1 = x.2)) : ℚ) /
        (preds.length : ℚ) := by
  refine ⟨rfl, ?_⟩
  simp only [simple_accuracy]
  rw [sum_indicator_zipWith, List.length_zipWith, h]
  simp

/-- Witness for C7 at a concrete input. -/
theorem C7_acc_is_simple_accuracy_witness :
    ([0, 1, 1] : List ℤ).length = ([0, 0, 1] : List ℤ).length ∧
    ((acc_and_f1 [0, 1, 1] [0, 0, 1] []).lookup "acc" =
        some (simple_accuracy [0, 1, 1] [0, 0, 1]) ∧
      simple_accuracy [0, 1, 1] [0, 0, 1] =
        ((([0, 1, 1] : List ℤ).zip [0, 0, 1]).countP
            (fun x => decide (x.1 = x.2)) : ℚ) /
          ((([0, 1, 1] : List ℤ).length : ℚ))) :=
  ⟨rfl, C7_acc_is_simple_accuracy [0, 1, 1] [0, 0, 1] [] rfl⟩

/-- C8: when the ROC-AUC computation raises `ValueError` (for instance when
the labels hold a single class), `acc_and_f1` still returns the complete
dictionary: `"auc_roc"` is `0.0` and every other entry equals the
corresponding metric of `preds` and `labels` alone — the same values it
takes when the ROC computation succeeds, since none of them reads
`pred_probs`. -/
theorem C8_roc_value_error_fallback (preds labels : List ℤ)
    (pred_probs : List (ℚ × ℚ))
    (h : roc_auc_score labels (pred_probs.map (fun pr => pr.2)) =
      .error .valueError) :
    (acc_and_f1 preds labels pred_probs).lookup "auc_roc" = some 0 ∧
    (acc_and_f1 preds labels pred_probs).lookup "acc" =
      some (simple_accuracy preds labels) ∧
    (acc_and_f1 preds labels pred_probs).lookup "f1" =
      some (f1_score preds labels) ∧
    (acc_and_f1 preds labels pred_probs).lookup "precision" =
      some (precision_score preds labels) ∧
    (acc_and_f1 preds labels pred_probs).lookup "recall" =
      some (recall_score preds labels) ∧
    (acc_and_f1 preds labels pred_probs).lookup "precision_weighted" =
      some (precision_weighted preds labels) ∧
    (acc_and_f1 preds labels pred_probs).lookup "recall_weighted" =
      some (recall_weighted preds labels) ∧
    (acc_and_f1 preds labels pred_probs).lookup "f1_weighted" =
      some (f1_weighted preds labels) := by
  simp only [acc_and_f1, h]
  exact ⟨rfl, rfl, rfl, rfl, rfl, rfl, rfl, rfl⟩

/-- Witness for C8: labels with a single class make the ROC raise. -/
theorem C8_roc_value_error_fallback_witness :
    roc_auc_score [1, 1] ([((0 : ℚ), (0 : ℚ)), (0, 0)].map (fun pr => pr.2)) =
      .error .valueError ∧
    ((acc_and_f1 [0, 1] [1, 1] [(0, 0), (0, 0)]).lookup "auc_roc" = some 0 ∧
      (acc_and_f1 [0, 1] [1, 1] [(0, 0), (0, 0)]).lookup "acc" =
        some (simple_accuracy [0, 1] [1, 1]) ∧
      (acc_and_f1 [0, 1] [1, 1] [(0, 0), (0, 0)]).lookup "f1" =
        some (f1_score [0, 1] [1, 1]) ∧
      (acc_and_f1 [0, 1] [1, 1] [(0, 0), (0, 0)]).lookup "precision" =
        some (precision_score [0, 1] [1, 1]) ∧
      (acc_and_f1 [0, 1] [1, 1] [(0, 0), (0, 0)]).lookup "recall" =
        some (recall_score [0, 1] [1, 1]) ∧
      (acc_and_f1 [0, 1] [1, 1] [(0, 0), (0, 0)]).lookup "precision_weighted" =
        some (precision_weighted [0, 1] [1, 1]) ∧
      (acc_and_f1 [0, 1] [1, 1] [(0, 0), (0, 0)]).lookup "recall_weighted" =
        some (recall_weighted [0, 1] [1, 1]) ∧
      (acc_and_f1 [0, 1] [1, 1] [(0, 0), (0, 0)]).lookup "f1_weighted" =
        some (f1_weighted [0, 1] [1, 1])) :=
  ⟨rfl, C8_roc_value_error_fallback [0, 1] [1, 1] [(0, 0), (0, 0)] rfl⟩

/-- C10: `plot_iterative_learning_curve` raises whenever `model_name` or
`dataset_name` is `None`, and its effect trace is then empty: no model is
fitted and no output file is written before the exception. -/
theorem C10_raises_before_effects (model_name dataset_name : Option String)
    (param_values : List ℚ)
    (h : model_name = none ∨ dataset_name = none) :
    plot_iterative_learning_curve model_name dataset_name param_values =
      (.error .runtimeError, []) := by
  rcases h with h | h
  · subst h
    cases dataset_name <;> rfl
  · subst h
    cases model_name <;> rfl

/-- Witness for C10 with a missing model name. -/
theorem C10_raises_before_effects_witness :
    ((none : Option String) = none ∨ (some "dataset" : Option String) = none) ∧
    plot_iterative_learning_curve none (some "dataset") [1, 2] =
      (.error .runtimeError, []) :=
  ⟨Or.inl rfl,
    C10_raises_before_effects none (some "dataset") [1, 2] (Or.inl rfl)⟩

/-! ## Claim theorems: loader -/

theorem featureOf_spec (msl : ℕ) (hmsl : 2 ≤ msl)
    (tokenize : String → List String) (token_to_id : String → ℤ)
    (ex : InputExample) :
    (featureOf msl tokenize token_to_id ex).text.length = msl ∧
    (featureOf msl tokenize token_to_id ex).length =
      min (tokenize ex.text_a).length (msl - 2) + 2 ∧
    (featureOf msl tokenize token_to_id ex).length ≤ msl := by
  simp only [featureOf]
  by_cases hc : ((tokenize ex.text_a).length : ℤ) > (msl : ℤ) - 2
  · rw [if_pos hc, pySliceTo, if_pos (show (0 : ℤ) ≤ (msl : ℤ) - 2 by omega)]
    simp only [List.length_append, List.length_map, List.length_take,
      List.length_replicate, List.length_cons, List.length_nil]
    omega
  · rw [if_neg hc]
    simp only [List.length_append, List.length_map, List.length_replicate,
      List.length_cons, List.length_nil]
    omega

/-- C3: with `max_seq_length ≥ 2`, `get_features` maps `featureOf` over the
split's examples, and every feature has a `text` of length exactly
`max_seq_length` (token ids truncated to `max_seq_length - 2`, wrapped in
`[CLS]`/`[SEP]`, zero-padded) and a `length` field counting the wrapped
tokens, hence at most `max_seq_length`. -/
theorem C3_feature_shapes (msl : ℕ) (hmsl : 2 ≤ msl)
    (tokenize : String → List String) (token_to_id : String → ℤ)
    (examples : List InputExample) :
    get_features msl tokenize token_to_id examples =
      examples.map (featureOf msl tokenize token_to_id) ∧
    ∀ ex ∈ examples,
      (featureOf msl tokenize token_to_id ex).text.length = msl ∧
      (featureOf msl tokenize token_to_id ex).length =
        min (tokenize ex.text_a).length (msl - 2) + 2 ∧
      (featureOf msl tokenize token_to_id ex).length ≤ msl :=
  ⟨rfl, fun ex _ => featureOf_spec msl hmsl tokenize token_to_id ex⟩

/-- Witness for C3: a three-token text with `max_seq_length = 4`. -/
theorem C3_feature_shapes_witness :
    2 ≤ 4 ∧
    (get_features 4 (fun s => [s, s, s]) (fun _ => 7) [⟨"g", "t", 0⟩] =
        [⟨"g", "t", 0⟩].map (featureOf 4 (fun s => [s, s, s]) (fun _ => 7)) ∧
      ∀ ex ∈ ([⟨"g", "t", 0⟩] : List InputExample),
        (featureOf 4 (fun s => [s, s, s]) (fun _ => 7) ex).text.length = 4 ∧
        (featureOf 4 (fun s => [s, s, s]) (fun _ => 7) ex).length =
          min ([ex.text_a, ex.text_a, ex.text_a].length) (4 - 2) + 2 ∧
        (featureOf 4 (fun s => [s, s, s]) (fun _ => 7) ex).length ≤ 4) :=
  ⟨by omega, C3_feature_shapes 4 (by omega) (fun s => [s, s, s]) (fun _ => 7)
    [⟨"g", "t", 0⟩]⟩

theorem pyIndex_ok (row : List String) (i : ℕ) (h : i < row.length) :
    pyIndex row i = .ok (row.getD i "") := by
  unfold pyIndex
  rw [List.getElem?_eq_getElem h]
  rw [List.getD_eq_getElem?_getD, List.getElem?_eq_getElem h]
  rfl

theorem createExamplesLoop_ok (text_col label_col : ℕ) (split : String)
    (body : CsvRows) (i : ℕ)
    (hcells : ∀ row ∈ body, text_col < row.length ∧ label_col < row.length)
    (hparse : ∀ row ∈ body, (pyInt (row.getD label_col "")).isSome) :
    createExamplesLoop text_col label_col split i body =
      .ok ((body.enumFrom i).map (fun p =>
        { guid := split ++ "-" ++ toString p.1,
          text_a := p.2.getD text_col "",
          label := (pyInt (p.2.getD label_col "")).getD 0 })) := by
  induction body generalizing i with
  | nil => rfl
  | cons row rest ih =>
    obtain ⟨ht, hl⟩ := hcells row (List.mem_cons_self _ _)
    obtain ⟨lab, hlab⟩ :=
      Option.isSome_iff_exists.mp (hparse row (List.mem_cons_self _ _))
    rw [createExamplesLoop, pyIndex_ok row text_col ht,
      pyIndex_ok row label_col hl]
    dsimp only
    rw [hlab, ih (i + 1) (fun r hr => hcells r (List.mem_cons_of_mem _ hr))
      (fun r hr => hparse r (List.mem_cons_of_mem _ hr))]
    have hlab' : pyInt (row[label_col]?.getD "") = some lab := by
      rw [← List.getD_eq_getElem?_getD]; exact hlab
    simp [List.enumFrom_cons, hlab, hlab']

theorem createExamplesLoop_err (text_col label_col : ℕ) (split : String)
    (body : CsvRows) (i : ℕ)
    (hcells : ∀ row ∈ body, text_col < row.length ∧ label_col < row.length)
    (hbad : ∃ row ∈ body, (pyInt (row.getD label_col "")).isSome = false) :
    createExamplesLoop text_col label_col split i body =
      .error .valueError := by
  induction body generalizing i with
  | nil => obtain ⟨r, hr, _⟩ := hbad; cases hr
  | cons row rest ih =>
    obtain ⟨ht, hl⟩ := hcells row (List.mem_cons_self _ _)
    rw [createExamplesLoop, pyIndex_ok row text_col ht,
      pyIndex_ok row label_col hl]
    dsimp only
    by_cases hp : (pyInt (row.getD label_col "")).isSome
    · obtain ⟨lab, hlab⟩ := Option.isSome_iff_exists.mp hp
      have hrest : ∃ r ∈ rest, (pyInt (r.getD label_col "")).isSome = false := by
        obtain ⟨r, hr, hbadr⟩ := hbad
        rcases List.mem_cons.mp hr with rfl | hr'
        · rw [hp] at hbadr; cases hbadr
        · exact ⟨r, hr', hbadr⟩
      rw [hlab, ih (i + 1) (fun r hr => hcells r (List.mem_cons_of_mem _ hr))
        hrest]
    · rw [Option.not_isSome_iff_eq_none.mp hp]

/-- C4: when `<split>.csv` exists, `_create_examples` (and hence the three
`get_*_examples` wrappers) skips exactly the header row; when every body
row's label cell parses as an integer it returns one `InputExample` per
remaining row in file order — `guid = '<split>-<i>'` for the 0-based index
`i`, `text_a` from the text column, `label` the parsed integer — and it
fails with `ValueError` as soon as any label cell does not parse. -/
theorem C4_create_examples (text_col label_col : ℕ) (split : String)
    (header : List String) (body : CsvRows)
    (hcells : ∀ row ∈ body, text_col < row.length ∧ label_col < row.length) :
    ((∀ row ∈ body, (pyInt (row.getD label_col "")).isSome) →
      create_examples text_col label_col split (header :: body) =
        .ok (body.enum.map (fun p =>
          { guid := split ++ "-" ++ toString p.1,
            text_a := p.2.getD text_col "",
            label := (pyInt (p.2.getD label_col "")).getD 0 }))) ∧
    ((∃ row ∈ body, (pyInt (row.getD label_col "")).isSome = false) →
      create_examples text_col label_col split (header :: body) =
        .error .valueError) ∧
    get_train_examples text_col label_col (header :: body) =
      create_examples text_col label_col "train" (header :: body) ∧
    get_dev_examples text_col label_col (header :: body) =
      create_examples text_col label_col "dev" (header :: body) ∧
    get_test_examples text_col label_col (header :: body) =
      create_examples text_col label_col "test" (header :: body) := by
  refine ⟨fun hp => ?_, fun hb => ?_, rfl, rfl, rfl⟩
  · exact createExamplesLoop_ok text_col label_col split body 0 hcells hp
  · exact createExamplesLoop_err text_col label_col split body 0 hcells hb

/-- Witness for C4 on a two-row file with a header. -/
theorem C4_create_examples_witness :
    (∀ row ∈ ([["hi", "1"], ["yo", "0"]] : CsvRows),
      0 < row.length ∧ 1 < row.length) ∧
    (∀ row ∈ ([["hi", "1"], ["yo", "0"]] : CsvRows),
      (pyInt (row.getD 1 "")).isSome) ∧
    create_examples 0 1 "train" [["text", "label"], ["hi", "1"], ["yo", "0"]] =
      .ok [⟨"train-0", "hi", 1⟩, ⟨"train-1", "yo", 0⟩] :=
  ⟨by decide, by decide,
    (C4_create_examples 0 1 "train" ["text", "label"] [["hi", "1"], ["yo", "0"]]
      (by decide)).1 (by decide)⟩

/-! ## Claim theorems: disparate impact -/

theorem mem_sortedUnique {g : List ℤ} {x : ℤ} : x ∈ sortedUnique g ↔ x ∈ g := by
  unfold sortedUnique
  rw [List.mem_insertionSort, List.mem_dedup]

theorem nodup_sortedUnique (g : List ℤ) : (sortedUnique g).Nodup :=
  ((List.perm_insertionSort _ _).nodup_iff).mpr g.nodup_dedup

theorem sorted_sortedUnique (g : List ℤ) :
    (sortedUnique g).Sorted (fun a b => a ≤ b) :=
  List.sorted_insertionSort _ _

theorem sortedUnique_pair {g : List ℤ} (hbin : ∀ x ∈ g, x = 0 ∨ x = 1)
    (h0 : (0 : ℤ) ∈ g) (h1 : (1 : ℤ) ∈ g) : sortedUnique g = [0, 1] := by
  have hperm : List.Perm (sortedUnique g) [0, 1] := by
    rw [List.perm_ext_iff_of_nodup (nodup_sortedUnique g) (by decide)]
    intro a
    rw [mem_sortedUnique]
    constructor
    · intro ha
      rcases hbin a ha with rfl | rfl <;> simp
    · intro ha
      simp only [List.mem_cons, List.mem_singleton, List.not_mem_nil,
        or_false] at ha
      rcases ha with rfl | rfl
      · exact h0
      · exact h1
  exact List.eq_of_perm_of_sorted hperm (sorted_sortedUnique g) (by decide)

theorem sortedUnique_short {g : List ℤ} (hbin : ∀ x ∈ g, x = 0 ∨ x = 1)
    (hnb : ¬((0 : ℤ) ∈ g ∧ (1 : ℤ) ∈ g)) : (sortedUnique g).length ≤ 1 := by
  rcases hsu : sortedUnique g with _ | ⟨a, _ | ⟨b, t⟩⟩
  · simp
  · simp
  · exfalso
    have hnd := nodup_sortedUnique g
    rw [hsu] at hnd
    have hab : a ≠ b := by
      rcases List.nodup_cons.mp hnd with ⟨hnotin, _⟩
      exact fun h => hnotin (h ▸ List.mem_cons_self _ _)
    have ha : a ∈ g := mem_sortedUnique.mp (hsu ▸ List.mem_cons_self _ _)
    have hb : b ∈ g :=
      mem_sortedUnique.mp (hsu ▸ List.mem_cons_of_mem _ (List.mem_cons_self _ _))
    rcases hbin a ha with rfl | rfl <;> rcases hbin b hb with rfl | rfl
    · exact hab rfl
    · exact hnb ⟨ha, hb⟩
    · exact hnb ⟨hb, ha⟩
    · exact hab rfl

theorem countP_zip_fst (g preds : List ℤ) (hlen : g.length = preds.length)
    (p : ℤ → Bool) : (g.zip preds).countP (fun x => p x.1) = g.countP p := by
  induction g generalizing preds with
  | nil => simp
  | cons a as ih =>
    cases preds with
    | nil => simp at hlen
    | cons b bs =>
      simp only [List.zip_cons_cons, List.countP_cons]
      rw [ih bs (by simpa using hlen)]

theorem count_group_eq (preds g : List ℤ) (k : ℤ)
    (hlen : g.length = preds.length) :
    ((g.zip preds).filter (fun x => decide (x.1 = k))).length =
      g.countP (fun x => decide (x = k)) := by
  rw [← List.countP_eq_length_filter]
  exact countP_zip_fst g preds hlen (fun v => decide (v = k))

theorem count_fav_eq (preds g : List ℤ) (k : ℤ) :
    ((g.zip preds).filter (fun x => decide (x.1 = k))).countP
        (fun x => decide (x.2 = 0)) =
      (preds.zip g).countP (fun x => decide (x.2 = k ∧ x.1 = 0)) := by
  rw [List.countP_filter, ← List.zip_swap preds g, List.countP_map]
  apply List.countP_congr
  intro a _
  simp [Bool.decide_and, Bool.and_comm, Function.comp]

theorem impactStage_of_both (m : MetricsDict) (preds g : List ℤ) (sfx : String)
    (hlen : g.length = preds.length) (hbin : ∀ x ∈ g, x = 0 ∨ x = 1)
    (h0 : (0 : ℤ) ∈ g) (h1 : (1 : ℤ) ∈ g) :
    impactStage m preds g sfx =
      dictSet (dictSet (dictSet (dictSet (dictSet m
        ("disparate_impact_" ++ sfx) (fracZero preds g 0 / fracZero preds g 1))
        ("unpriv_ratio_" ++ sfx) (fracZero preds g 0))
        ("priv_ratio_" ++ sfx) (fracZero preds g 1))
        ("priv_n_" ++ sfx) ((g.countP (fun x => decide (x = 1)) : ℚ)))
        ("unpriv_n_" ++ sfx) ((g.countP (fun x => decide (x = 0)) : ℚ)) := by
  rw [impactStage, groupCounts, sortedUnique_pair hbin h0 h1]
  dsimp only [List.map_cons, List.map_nil]
  rw [count_group_eq preds g 0 hlen, count_group_eq preds g 1 hlen,
    count_fav_eq preds g 0, count_fav_eq preds g 1]
  simp only [fracZero]

theorem impactStage_of_single (m : MetricsDict) (preds g : List ℤ)
    (sfx : String) (hbin : ∀ x ∈ g, x = 0 ∨ x = 1)
    (hnb : ¬((0 : ℤ) ∈ g ∧ (1 : ℤ) ∈ g)) :
    impactStage m preds g sfx = m := by
  have hshort := sortedUnique_short hbin hnb
  rw [impactStage, groupCounts]
  rcases hsu : sortedUnique g with _ | ⟨a, _ | ⟨b, t⟩⟩
  · rfl
  · rfl
  · rw [hsu] at hshort
    simp at hshort

theorem lookup_impactStage_of_ne (m : MetricsDict) (preds g : List ℤ)
    (sfx k : String)
    (h1 : k ≠ "disparate_impact_" ++ sfx) (h2 : k ≠ "unpriv_ratio_" ++ sfx)
    (h3 : k ≠ "priv_ratio_" ++ sfx) (h4 : k ≠ "priv_n_" ++ sfx)
    (h5 : k ≠ "unpriv_n_" ++ sfx) :
    (impactStage m preds g sfx).lookup k = m.lookup k := by
  rw [impactStage]
  rcases hgc : groupCounts preds g with _ | ⟨⟨k0, c0, f0, u0⟩, _ | ⟨⟨k1, c1, f1, u1⟩, _ | _⟩⟩
  · rfl
  · rfl
  · dsimp only
    rw [lookup_dictSet_ne _ _ _ _ h5, lookup_dictSet_ne _ _ _ _ h4,
      lookup_dictSet_ne _ _ _ _ h3, lookup_dictSet_ne _ _ _ _ h2,
      lookup_dictSet_ne _ _ _ _ h1]
  · rfl

/-- C2: for binary group-indicator arrays aligned with `preds`, when an
indicator contains both `0` and `1`, `compute_disparate_impact` adds the
disparate-impact key for that threshold — the fraction of indicator-`0`
rows predicted `0` divided by the fraction of indicator-`1` rows predicted
`0` — together with the two ratios and the two group sizes; when an
indicator takes at most one value, its block adds nothing and passes the
dictionary through unchanged. -/
theorem C2_compute_disparate_impact (m : MetricsDict) (preds g08 g06 : List ℤ)
    (hl8 : g08.length = preds.length) (hl6 : g06.length = preds.length)
    (hb8 : ∀ x ∈ g08, x = 0 ∨ x = 1) (hb6 : ∀ x ∈ g06, x = 0 ∨ x = 1) :
    (((0 : ℤ) ∈ g08 ∧ (1 : ℤ) ∈ g08) →
      ((compute_disparate_impact m preds g08 g06).lookup
          "disparate_impact_0.8" =
          some (fracZero preds g08 0 / fracZero preds g08 1) ∧
        (compute_disparate_impact m preds g08 g06).lookup "unpriv_ratio_0.8" =
          some (fracZero preds g08 0) ∧
        (compute_disparate_impact m preds g08 g06).lookup "priv_ratio_0.8" =
          some (fracZero preds g08 1) ∧
        (compute_disparate_impact m preds g08 g06).lookup "priv_n_0.8" =
          some ((g08.countP (fun x => decide (x = 1)) : ℚ)) ∧
        (compute_disparate_impact m preds g08 g06).lookup "unpriv_n_0.8" =
          some ((g08.countP (fun x => decide (x = 0)) : ℚ)))) ∧
    (¬((0 : ℤ) ∈ g08 ∧ (1 : ℤ) ∈ g08) →
      compute_disparate_impact m preds g08 g06 =
        impactStage m preds g06 "0.6") ∧
    (((0 : ℤ) ∈ g06 ∧ (1 : ℤ) ∈ g06) →
      ((compute_disparate_impact m preds g08 g06).lookup
          "disparate_impact_0.6" =
          some (fracZero preds g06 0 / fracZero preds g06 1) ∧
        (compute_disparate_impact m preds g08 g06).lookup "unpriv_ratio_0.6" =
          some (fracZero preds g06 0) ∧
        (compute_disparate_impact m preds g08 g06).lookup "priv_ratio_0.6" =
          some (fracZero preds g06 1) ∧
        (compute_disparate_impact m preds g08 g06).lookup "priv_n_0.6" =
          some ((g06.countP (fun x => decide (x = 1)) : ℚ)) ∧
        (compute_disparate_impact m preds g08 g06).lookup "unpriv_n_0.6" =
          some ((g06.countP (fun x => decide (x = 0)) : ℚ)))) ∧
    (¬((0 : ℤ) ∈ g06 ∧ (1 : ℤ) ∈ g06) →
      compute_disparate_impact m preds g08 g06 =
        impactStage m preds g08 "0.8") := by
  refine ⟨fun hboth => ?_, fun hnb => ?_, fun hboth => ?_, fun hnb => ?_⟩
  · have h08 := impactStage_of_both m preds g08 "0.8" hl8 hb8 hboth.1 hboth.2
    rw [compute_disparate_impact]
    refine ⟨?_, ?_, ?_, ?_, ?_⟩ <;>
      rw [lookup_impactStage_of_ne _ _ _ _ _ (by decide) (by decide) (by decide)
          (by decide) (by decide), h08] <;>
      simp only [String.reduceAppend] <;>
      simp only [lookup_dictSet_self,
        lookup_dictSet_ne _ _ _ _ (by decide : ("disparate_impact_0.8" : String) ≠ "unpriv_n_0.8"),
        lookup_dictSet_ne _ _ _ _ (by decide : ("disparate_impact_0.8" : String) ≠ "priv_n_0.8"),
        lookup_dictSet_ne _ _ _ _ (by decide : ("disparate_impact_0.8" : String) ≠ "priv_ratio_0.8"),
        lookup_dictSet_ne _ _ _ _ (by decide : ("disparate_impact_0.8" : String) ≠ "unpriv_ratio_0.8"),
        lookup_dictSet_ne _ _ _ _ (by decide : ("unpriv_ratio_0.8" : String) ≠ "unpriv_n_0.8"),
        lookup_dictSet_ne _ _ _ _ (by decide : ("unpriv_ratio_0.8" : String) ≠ "priv_n_0.8"),
        lookup_dictSet_ne _ _ _ _ (by decide : ("unpriv_ratio_0.8" : String) ≠ "priv_ratio_0.8"),
        lookup_dictSet_ne _ _ _ _ (by decide : ("priv_ratio_0.8" : String) ≠ "unpriv_n_0.8"),
        lookup_dictSet_ne _ _ _ _ (by decide : ("priv_ratio_0.8" : String) ≠ "priv_n_0.8"),
        lookup_dictSet_ne _ _ _ _ (by decide : ("priv_n_0.8" : String) ≠ "unpriv_n_0.8")]
  · rw [compute_disparate_impact, impactStage_of_single m preds g08 "0.8" hb8 hnb]
  · rw [compute_disparate_impact,
      impactStage_of_both _ preds g06 "0.6" hl6 hb6 hboth.1 hboth.2]
    simp only [String.reduceAppend]
    refine ⟨?_, ?_, ?_, ?_, ?_⟩ <;>
      simp only [lookup_dictSet_self,
        lookup_dictSet_ne _ _ _ _ (by decide : ("disparate_impact_0.6" : String) ≠ "unpriv_n_0.6"),
        lookup_dictSet_ne _ _ _ _ (by decide : ("disparate_impact_0.6" : String) ≠ "priv_n_0.6"),
        lookup_dictSet_ne _ _ _ _ (by decide : ("disparate_impact_0.6" : String) ≠ "priv_ratio_0.6"),
        lookup_dictSet_ne _ _ _ _ (by decide : ("disparate_impact_0.6" : String) ≠ "unpriv_ratio_0.6"),
        lookup_dictSet_ne _ _ _ _ (by decide : ("unpriv_ratio_0.6" : String) ≠ "unpriv_n_0.6"),
        lookup_dictSet_ne _ _ _ _ (by decide : ("unpriv_ratio_0.6" : String) ≠ "priv_n_0.6"),
        lookup_dictSet_ne _ _ _ _ (by decide : ("unpriv_ratio_0.6" : String) ≠ "priv_ratio_0.6"),
        lookup_dictSet_ne _ _ _ _ (by decide : ("priv_ratio_0.6" : String) ≠ "unpriv_n_0.6"),
        lookup_dictSet_ne _ _ _ _ (by decide : ("priv_ratio_0.6" : String) ≠ "priv_n_0.6"),
        lookup_dictSet_ne _ _ _ _ (by decide : ("priv_n_0.6" : String) ≠ "unpriv_n_0.6")]
  · rw [compute_disparate_impact,
      impactStage_of_single _ preds g06 "0.6" hb6 hnb]

/-- Witness for C2: the `0.8` indicator has both groups, the `0.6`
indicator a single group. -/
theorem C2_compute_disparate_impact_witness :
    ([0, 0, 1, 1] : List ℤ).length = ([0, 1, 1, 0] : List ℤ).length ∧
    ([1, 1, 1, 1] : List ℤ).length = ([0, 1, 1, 0] : List ℤ).length ∧
    (∀ x ∈ ([0, 0, 1, 1] : List ℤ), x = 0 ∨ x = 1) ∧
    (∀ x ∈ ([1, 1, 1, 1] : List ℤ), x = 0 ∨ x = 1) ∧
    ((0 : ℤ) ∈ ([0, 0, 1, 1] : List ℤ) ∧ (1 : ℤ) ∈ ([0, 0, 1, 1] : List ℤ)) ∧
    (compute_disparate_impact [("acc", 1)] [0, 1, 1, 0] [0, 0, 1, 1]
        [1, 1, 1, 1]).lookup "disparate_impact_0.8" =
      some (fracZero [0, 1, 1, 0] [0, 0, 1, 1] 0 /
        fracZero [0, 1, 1, 0] [0, 0, 1, 1] 1) ∧
    ¬((0 : ℤ) ∈ ([1, 1, 1, 1] : List ℤ) ∧ (1 : ℤ) ∈ ([1, 1, 1, 1] : List ℤ)) ∧
    compute_disparate_impact [("acc", 1)] [0, 1, 1, 0] [0, 0, 1, 1]
        [1, 1, 1, 1] =
      impactStage [("acc", 1)] [0, 1, 1, 0] [0, 0, 1, 1] "0.8" := by
  refine ⟨by decide, by decide, by decide, by decide, by decide, ?_,
    by decide, ?_⟩
  · exact ((C2_compute_disparate_impact [("acc", 1)] [0, 1, 1, 0] [0, 0, 1, 1]
      [1, 1, 1, 1] (by decide) (by decide) (by decide) (by decide)).1
        (by decide)).1
  · exact (C2_compute_disparate_impact [("acc", 1)] [0, 1, 1, 0] [0, 0, 1, 1]
      [1, 1, 1, 1] (by decide) (by decide) (by decide)
        (by decide)).2.2.2 (by decide)

/-! ## Claim theorems: vectorization -/

theorem topKIndices_length (scores : List ℚ) (k : ℕ) :
    (topKIndices scores k).length = min k scores.length := by
  unfold topKIndices
  rw [List.length_insertionSort, List.length_take, List.length_insertionSort,
    List.length_range]

/-- C5: `tfidf_vectorize` strips every punctuation character except the
period from all three corpora before vectorizing; the vocabulary and the
top-`k` selection are fitted on the stripped training texts and training
labels only (both appear only through the training corpus below), and the
three returned matrices all have exactly
`min top_k (number of fitted vocabulary features)` columns. -/
theorem C5_tfidf_shapes (analyze : String → List String) (idf : String → ℚ)
    (score : List (List ℚ) → List ℤ → List ℚ)
    (train_texts : List String) (train_labels : List ℤ)
    (val_texts test_texts : List String) (top_k min_df : ℕ)
    (hscore : (score (vectTransform analyze idf
        (fitVocabulary analyze min_df (remove_punctuation_tweet train_texts))
        (remove_punctuation_tweet train_texts)) train_labels).length =
      (fitVocabulary analyze min_df
        (remove_punctuation_tweet train_texts)).length) :
    (∀ t ∈ remove_punctuation_tweet (train_texts ++ val_texts ++ test_texts),
      ∀ c ∈ t.toList, c ∈ pythonPunctuation → c = '.') ∧
    (∀ row ∈ (tfidf_vectorize analyze idf score train_texts train_labels
        val_texts test_texts top_k min_df).1,
      row.length = min top_k (fitVocabulary analyze min_df
        (remove_punctuation_tweet train_texts)).length) ∧
    (∀ row ∈ (tfidf_vectorize analyze idf score train_texts train_labels
        val_texts test_texts top_k min_df).2.1,
      row.length = min top_k (fitVocabulary analyze min_df
        (remove_punctuation_tweet train_texts)).length) ∧
    (∀ row ∈ (tfidf_vectorize analyze idf score train_texts train_labels
        val_texts test_texts top_k min_df).2.2,
      row.length = min top_k (fitVocabulary analyze min_df
        (remove_punctuation_tweet train_texts)).length) := by
  have hsel : ∀ M : List (List ℚ), ∀ row ∈ selectColumns
      (topKIndices (score (vectTransform analyze idf
        (fitVocabulary analyze min_df (remove_punctuation_tweet train_texts))
        (remove_punctuation_tweet train_texts)) train_labels)
        (min top_k (fitVocabulary analyze min_df
          (remove_punctuation_tweet train_texts)).length)) M,
      row.length = min top_k (fitVocabulary analyze min_df
        (remove_punctuation_tweet train_texts)).length := by
    intro M row hrow
    simp only [selectColumns, List.mem_map] at hrow
    obtain ⟨r0, _, rfl⟩ := hrow
    rw [List.length_map, topKIndices_length, hscore, min_assoc, min_self]
  refine ⟨?_, ?_, ?_, ?_⟩
  · intro t ht c hc hcp
    simp only [remove_punctuation_tweet, List.mem_map] at ht
    obtain ⟨s, _, rfl⟩ := ht
    have hc' : c ∈ s.toList.filter (fun ch => !(punctuationNoPeriod.contains ch)) := hc
    rw [List.mem_filter] at hc'
    by_contra hne
    have hmem : c ∈ punctuationNoPeriod := by
      rw [punctuationNoPeriod, List.mem_filter]
      refine ⟨hcp, ?_⟩
      simpa using hne
    have hfalse : punctuationNoPeriod.contains c = false := by
      simpa using hc'.2
    have : c ∉ punctuationNoPeriod := by simpa using hfalse
    exact this hmem
  · exact hsel _
  · exact hsel _
  · exact hsel _

/-- Witness for C5 with a constant analyzer and empty score vector. -/
theorem C5_tfidf_shapes_witness :
    ((fun (_ : List (List ℚ)) (_ : List ℤ) => ([] : List ℚ))
        (vectTransform (fun _ => []) (fun _ => 1)
          (fitVocabulary (fun _ => []) 2 (remove_punctuation_tweet ["a!b"]))
          (remove_punctuation_tweet ["a!b"])) [1]).length =
      (fitVocabulary (fun _ => []) 2
        (remove_punctuation_tweet ["a!b"])).length ∧
    (∀ t ∈ remove_punctuation_tweet (["a!b"] ++ ["c.d"] ++ []),
      ∀ c ∈ t.toList, c ∈ pythonPunctuation → c = '.') :=
  ⟨rfl, (C5_tfidf_shapes (fun _ => []) (fun _ => 1) (fun _ _ => [])
    ["a!b"] [1] ["c.d"] [] 5 2 rfl).1⟩

/-- C6: `glove_vectorize` learns its vocabulary from the training texts
only, capped at 20000 tokens; the three vectorized corpora have output
sequence length 200 on every row; the embedding layer is non-trainable,
with input dimension `len(voc) + 2` and output dimension 100, and the row
of each vocabulary word is that word's vector from the GloVe file, all
zeros when the file does not have the word. -/
theorem C6_glove_vectorize (train_texts val_texts test_texts : List String)
    (gloveFile : List (String × List ℚ)) :
    (adaptVocabulary 20000 train_texts).length ≤ 20000 ∧
    (∀ row ∈ (glove_vectorize train_texts val_texts test_texts gloveFile).1,
      row.length = 200) ∧
    (∀ row ∈ (glove_vectorize train_texts val_texts test_texts gloveFile).2.1,
      row.length = 200) ∧
    (∀ row ∈
        (glove_vectorize train_texts val_texts test_texts gloveFile).2.2.1,
      row.length = 200) ∧
    (glove_vectorize train_texts val_texts test_texts
        gloveFile).2.2.2.input_dim =
      (adaptVocabulary 20000 train_texts).length + 2 ∧
    (glove_vectorize train_texts val_texts test_texts
        gloveFile).2.2.2.output_dim = 100 ∧
    (glove_vectorize train_texts val_texts test_texts
        gloveFile).2.2.2.trainable = false ∧
    ∀ i, i < (adaptVocabulary 20000 train_texts).length →
      (glove_vectorize train_texts val_texts test_texts
          gloveFile).2.2.2.weights.getD i [] =
        (match embeddingsIndex gloveFile
            ((adaptVocabulary 20000 train_texts).getD i "") with
          | some v => v
          | none => List.replicate 100 0) := by
  have hrow : ∀ texts : List String, ∀ row ∈
      tvVectorize (adaptVocabulary 20000 train_texts) 200 texts,
      row.length = 200 := by
    intro texts row hrow
    simp only [tvVectorize, List.mem_map] at hrow
    obtain ⟨t, _, rfl⟩ := hrow
    rw [List.length_take, List.length_append, List.length_replicate]
    omega
  refine ⟨?_, hrow _, hrow _, hrow _, rfl, rfl, rfl, ?_⟩
  · simp only [adaptVocabulary, List.length_append, List.length_take,
      List.length_cons, List.length_nil]
    omega
  · intro i hi
    have h2 : i < (adaptVocabulary 20000 train_texts).length + 2 := by omega
    show (embeddingMatrix (adaptVocabulary 20000 train_texts) 100
        gloveFile).getD i [] = _
    rw [embeddingMatrix, List.getD_eq_getElem?_getD, List.getElem?_map,
      List.getElem?_range h2]
    have hv : (adaptVocabulary 20000 train_texts)[i]? =
        some ((adaptVocabulary 20000 train_texts).getD i "") := by
      rw [List.getD_eq_getElem?_getD, List.getElem?_eq_getElem hi]
      rfl
    rw [Option.map_some', hv]
    rfl

/-- Witness for C6 at concrete corpora and GloVe file. -/
theorem C6_glove_vectorize_witness :
    (adaptVocabulary 20000 []).length ≤ 20000 ∧
    (glove_vectorize [] [] [] [("w", List.replicate 100 0)]).2.2.2.output_dim
      = 100 ∧
    (glove_vectorize [] [] [] [("w", List.replicate 100 0)]).2.2.2.trainable
      = false := by
  have h := C6_glove_vectorize [] [] [] [("w", List.replicate 100 0)]
  exact ⟨h.1, h.2.2.2.2.2.1, h.2.2.2.2.2.2.1⟩

/-! ## Claim theorems: `get_middle_factors` -/

theorem factorList_sorted (n : ℕ) :
    (factorList n).Sorted (fun a b => a ≤ b) :=
  List.sorted_insertionSort _ _

theorem factorList_nodup (n : ℕ) : (factorList n).Nodup :=
  ((List.perm_insertionSort _ _).nodup_iff).mpr (List.nodup_dedup _)

theorem mem_factorList (n : ℕ) (hn : 1 ≤ n) (x : ℕ) :
    x ∈ factorList n ↔ x ∈ n.divisors := by
  unfold factorList
  rw [List.mem_insertionSort, List.mem_dedup, List.mem_flatMap]
  constructor
  · rintro ⟨i, hi, hx⟩
    rw [List.mem_filter] at hi
    obtain ⟨hirange, hidvd⟩ := hi
    have hdvd : i ∣ n := Nat.dvd_of_mod_eq_zero (by simpa using hidvd)
    simp only [List.mem_cons, List.mem_singleton, List.not_mem_nil,
      or_false] at hx
    rcases hx with rfl | rfl
    · exact Nat.mem_divisors.mpr ⟨hdvd, by omega⟩
    · exact Nat.mem_divisors.mpr ⟨Nat.div_dvd_of_dvd hdvd, by omega⟩
  · intro hxdiv
    obtain ⟨hdvd, _⟩ := Nat.mem_divisors.mp hxdiv
    have hxpos : 0 < x := Nat.pos_of_mem_divisors hxdiv
    have hs1 : 1 ≤ Nat.sqrt n := Nat.sqrt_pos.mpr (by omega)
    have hsmall : ∀ e, e ∣ n → 0 < e → e ≤ Nat.sqrt n →
        e ∈ (pyRange 1 (Nat.sqrt n + 1) (if n % 2 ≠ 0 then 2 else 1)).filter
          (fun i => n % i == 0) := by
      intro e hedvd hepos hele
      rw [List.mem_filter]
      refine ⟨?_, by simpa using Nat.mod_eq_zero_of_dvd hedvd⟩
      by_cases hpar : n % 2 ≠ 0
      · have heodd : e % 2 = 1 := by
          rcases Nat.mod_two_eq_zero_or_one e with he | he
          · exact absurd (Nat.mod_eq_zero_of_dvd
              ((Nat.dvd_of_mod_eq_zero he).trans hedvd)) hpar
          · exact he
        rw [if_pos hpar]
        simp only [pyRange, List.mem_map, List.mem_range]
        exact ⟨(e - 1) / 2, by omega, by omega⟩
      · rw [if_neg hpar]
        simp only [pyRange, List.mem_map, List.mem_range]
        exact ⟨e - 1, by omega, by omega⟩
    by_cases hxs : x ≤ Nat.sqrt n
    · exact ⟨x, hsmall x hdvd hxpos hxs, by simp⟩
    · push_neg at hxs
      have hepos : 0 < n / x := Nat.div_pos (Nat.le_of_dvd (by omega) hdvd) hxpos
      have hedvd : n / x ∣ n := Nat.div_dvd_of_dvd hdvd
      have heles : n / x ≤ Nat.sqrt n := by
        have h1 : n / x ≤ n / (Nat.sqrt n + 1) :=
          Nat.div_le_div_left hxs (by omega)
        have h2 : n / (Nat.sqrt n + 1) < Nat.sqrt n + 1 := by
          rw [Nat.div_lt_iff_lt_mul (by omega)]
          exact Nat.lt_succ_sqrt n
        omega
      refine ⟨n / x, hsmall _ hedvd hepos heles, ?_⟩
      have hxx : n / (n / x) = x := Nat.div_div_self hdvd (by omega)
      simp [hxx]

theorem factorList_rev_map (n : ℕ) (hn : 1 ≤ n) :
    (factorList n).reverse.map (fun d => n / d) = factorList n := by
  have hmem : ∀ x, x ∈ factorList n ↔ x ∈ n.divisors := mem_factorList n hn
  have hnd : (factorList n).Nodup := factorList_nodup n
  have hsort := factorList_sorted n
  have hpos : ∀ x ∈ factorList n, 0 < x := fun x hx =>
    Nat.pos_of_mem_divisors ((hmem x).mp hx)
  have hdvd : ∀ x ∈ factorList n, x ∣ n := fun x hx =>
    (Nat.mem_divisors.mp ((hmem x).mp hx)).1
  have hdivdiv : ∀ x ∈ factorList n, n / (n / x) = x := fun x hx =>
    Nat.div_div_self (hdvd x hx) (by omega)
  have hndM : ((factorList n).reverse.map (fun d => n / d)).Nodup := by
    apply List.Nodup.map_on
    · intro x hx y hy hxy
      rw [List.mem_reverse] at hx hy
      calc x = n / (n / x) := (hdivdiv x hx).symm
        _ = n / (n / y) := by rw [hxy]
        _ = y := hdivdiv y hy
    · exact List.nodup_reverse.mpr hnd
  have hsortM : ((factorList n).reverse.map (fun d => n / d)).Sorted
      (fun a b => a ≤ b) := by
    have hrev : (factorList n).reverse.Pairwise (fun a b => b ≤ a) :=
      List.pairwise_reverse.mpr hsort
    have hrev2 : (factorList n).reverse.Pairwise
        (fun a b => n / a ≤ n / b) := by
      apply hrev.imp_of_mem
      intro a b ha hb hba
      rw [List.mem_reverse] at ha hb
      exact Nat.div_le_div_left hba (hpos b hb)
    exact hrev2.map (fun d => n / d) (fun a b h => h)
  have hperm : List.Perm ((factorList n).reverse.map (fun d => n / d))
      (factorList n) := by
    rw [List.perm_ext_iff_of_nodup hndM hnd]
    intro a
    constructor
    · intro ha
      rw [List.mem_map] at ha
      obtain ⟨d, hd, rfl⟩ := ha
      rw [List.mem_reverse] at hd
      exact (hmem _).mpr (Nat.mem_divisors.mpr
        ⟨Nat.div_dvd_of_dvd (hdvd d hd), by omega⟩)
    · intro ha
      rw [List.mem_map]
      refine ⟨n / a, ?_, hdivdiv a ha⟩
      rw [List.mem_reverse]
      exact (hmem _).mpr (Nat.mem_divisors.mpr
        ⟨Nat.div_dvd_of_dvd (hdvd a ha), by omega⟩)
  exact List.eq_of_perm_of_sorted hperm hsortM hsort

theorem getD_nat_eq_getElem (l : List ℕ) (i : ℕ) (h : i < l.length) :
    l.getD i 0 = l[i] := by
  rw [List.getD_eq_getElem?_getD, List.getElem?_eq_getElem h]
  rfl

theorem factorList_getD_mul (n : ℕ) (hn : 1 ≤ n) (i : ℕ)
    (hi : i < (factorList n).length) :
    (factorList n).getD i 0 *
      (factorList n).getD ((factorList n).length - 1 - i) 0 = n := by
  have hj : (factorList n).length - 1 - i < (factorList n).length := by omega
  have h1 : (factorList n)[i]? =
      ((factorList n).reverse.map (fun d => n / d))[i]? := by
    rw [factorList_rev_map n hn]
  rw [List.getElem?_map, List.getElem?_reverse hi,
    List.getElem?_eq_getElem hi, List.getElem?_eq_getElem hj] at h1
  simp only [Option.map_some'] at h1
  have hval : (factorList n)[i] =
      n / (factorList n)[(factorList n).length - 1 - i] :=
    Option.some.inj h1
  have hmemj : (factorList n)[(factorList n).length - 1 - i] ∈ factorList n :=
    List.getElem_mem hj
  have hdvdj : (factorList n)[(factorList n).length - 1 - i] ∣ n :=
    (Nat.mem_divisors.mp ((mem_factorList n hn _).mp hmemj)).1
  rw [getD_nat_eq_getElem _ _ hi, getD_nat_eq_getElem _ _ hj, hval]
  exact Nat.div_mul_cancel hdvdj

theorem factorList_two_le (n : ℕ) (h2 : 2 ≤ n) :
    2 ≤ (factorList n).length := by
  have h1 : (1 : ℕ) ∈ factorList n :=
    (mem_factorList n (by omega) 1).mpr (Nat.one_mem_divisors.mpr (by omega))
  have hn : n ∈ factorList n :=
    (mem_factorList n (by omega) n).mpr (Nat.mem_divisors_self n (by omega))
  rcases hL : factorList n with _ | ⟨a, _ | ⟨b, t⟩⟩
  · rw [hL] at h1; cases h1
  · rw [hL] at h1 hn
    rw [List.mem_singleton] at h1 hn
    omega
  · simp only [List.length_cons]
    omega

theorem factorList_getD_le (n : ℕ) (i j : ℕ) (hij : i ≤ j)
    (hj : j < (factorList n).length) :
    (factorList n).getD i 0 ≤ (factorList n).getD j 0 := by
  have hi : i < (factorList n).length := by omega
  rcases Nat.eq_or_lt_of_le hij with rfl | hlt
  · exact le_refl _
  · rw [getD_nat_eq_getElem _ _ hi, getD_nat_eq_getElem _ _ hj]
    have h := (factorList_sorted n).rel_get_of_lt
      (a := ⟨i, hi⟩) (b := ⟨j, hj⟩) hlt
    simpa [List.get_eq_getElem] using h

theorem factorList_getD_pos_dvd (n : ℕ) (hn : 1 ≤ n) (i : ℕ)
    (hi : i < (factorList n).length) :
    0 < (factorList n).getD i 0 ∧ (factorList n).getD i 0 ∣ n := by
  rw [getD_nat_eq_getElem _ _ hi]
  have hmem : (factorList n)[i] ∈ factorList n := List.getElem_mem hi
  have hd := (mem_factorList n hn _).mp hmem
  exact ⟨Nat.pos_of_mem_divisors hd, (Nat.mem_divisors.mp hd).1⟩

/-- C9: for every `n ≥ 2`, `get_middle_factors` returns a pair of positive
divisors of `n` in sorted order whose product is `n` (the repeated middle
divisor when the sorted factor array has odd length); for `n = 1` it
returns the single scalar `0` rather than a pair. -/
theorem C9_get_middle_factors (n : ℕ) (h2 : 2 ≤ n) :
    (∃ a b, get_middle_factors n = .pair a b ∧ 0 < a ∧ 0 < b ∧
      a ∣ n ∧ b ∣ n ∧ a * b = n ∧ a ≤ b) ∧
    get_middle_factors 1 = .scalar 0 := by
  constructor
  · have hn : 1 ≤ n := by omega
    have hlen2 := factorList_two_le n h2
    by_cases hb1 : 3 < (factorList n).length ∧ (factorList n).length % 2 = 0
    · have hiL : (factorList n).length / 2 - 1 < (factorList n).length := by
        omega
      have hjL : (factorList n).length / 2 < (factorList n).length := by omega
      refine ⟨(factorList n).getD ((factorList n).length / 2 - 1) 0,
        (factorList n).getD ((factorList n).length / 2) 0,
        ?_, ?_, ?_, ?_, ?_, ?_, ?_⟩
      · simp only [get_middle_factors]
        rw [if_pos hb1]
      · exact (factorList_getD_pos_dvd n hn _ hiL).1
      · exact (factorList_getD_pos_dvd n hn _ hjL).1
      · exact (factorList_getD_pos_dvd n hn _ hiL).2
      · exact (factorList_getD_pos_dvd n hn _ hjL).2
      · have hmul := factorList_getD_mul n hn ((factorList n).length / 2 - 1) hiL
        have hidx : (factorList n).length - 1 -
            ((factorList n).length / 2 - 1) = (factorList n).length / 2 := by
          omega
        rw [hidx] at hmul
        exact hmul
      · exact factorList_getD_le n _ _ (by omega) hjL
    · by_cases hb2 : 2 < (factorList n).length ∧
          (factorList n).length % 2 ≠ 0
      · have hjL : (factorList n).length / 2 < (factorList n).length := by
          omega
        refine ⟨(factorList n).getD ((factorList n).length / 2) 0,
          (factorList n).getD ((factorList n).length / 2) 0,
          ?_, ?_, ?_, ?_, ?_, ?_, le_refl _⟩
        · simp only [get_middle_factors]
          rw [if_neg hb1, if_pos hb2]
        · exact (factorList_getD_pos_dvd n hn _ hjL).1
        · exact (factorList_getD_pos_dvd n hn _ hjL).1
        · exact (factorList_getD_pos_dvd n hn _ hjL).2
        · exact (factorList_getD_pos_dvd n hn _ hjL).2
        · have hmul := factorList_getD_mul n hn
            ((factorList n).length / 2) hjL
          have hidx : (factorList n).length - 1 -
              (factorList n).length / 2 = (factorList n).length / 2 := by
            omega
          rw [hidx] at hmul
          exact hmul
      · have hlen : (factorList n).length = 2 := by omega
        have h0L : 0 < (factorList n).length := by omega
        have h1L : 1 < (factorList n).length := by omega
        refine ⟨(factorList n).getD 0 0, (factorList n).getD 1 0,
          ?_, ?_, ?_, ?_, ?_, ?_, ?_⟩
        · simp only [get_middle_factors]
          rw [if_neg hb1, if_neg hb2, if_pos h1L]
        · exact (factorList_getD_pos_dvd n hn _ h0L).1
        · exact (factorList_getD_pos_dvd n hn _ h1L).1
        · exact (factorList_getD_pos_dvd n hn _ h0L).2
        · exact (factorList_getD_pos_dvd n hn _ h1L).2
        · have hmul := factorList_getD_mul n hn 0 h0L
          have hidx : (factorList n).length - 1 - 0 = 1 := by omega
          rw [hidx] at hmul
          exact hmul
        · exact factorList_getD_le n 0 1 (by omega) h1L
  · have h1 : factorList 1 = [1] := by
      unfold factorList
      rw [Nat.sqrt_one]
      decide
    simp [get_middle_factors, h1]

/-- Witness for C9 at `n = 12`. -/
theorem C9_get_middle_factors_witness :
    2 ≤ 12 ∧
    ((∃ a b, get_middle_factors 12 = .pair a b ∧ 0 < a ∧ 0 < b ∧
        a ∣ 12 ∧ b ∣ 12 ∧ a * b = 12 ∧ a ≤ b) ∧
      get_middle_factors 1 = .scalar 0) :=
  ⟨by omega, C9_get_middle_factors 12 (by omega)⟩
